import Mathlib

/-!
A shallow embedding of the `OmegaConfLoader` configuration engine
(`kedro/config/omegaconf_config.py`): pattern registry, per-directory
fragment discovery, duplicate-key detection, per-directory merge, and
base-to-environment composition, together with its error taxonomy.

Configuration trees are association lists of string keys; the filesystem
and the external parsing engine are abstracted as a record of functions.
-/

set_option autoImplicit false
set_option maxRecDepth 8192

namespace KedroOmega

/-- A parsed configuration value: the in-memory tree produced by the external
structured-text engine for one document node. -/
inductive CVal : Type where
  | vnull : CVal
  | vbool : Bool → CVal
  | vint : Int → CVal
  | vstr : String → CVal
  | varr : List CVal → CVal
  | vmap : List (String × CVal) → CVal

/-- A top-level configuration mapping: what one fragment file parses to, and
what the loader returns.  Keys of a parsed mapping are unique (a Python dict
cannot hold duplicate keys). -/
abbrev Cfg : Type := List (String × CVal)

/-- First-match lookup in an association list (Python `d[k]` / `k in d`). -/
def lookupKey {α : Type} : List (String × α) → String → Option α
  | [], _ => none
  | e :: rest, k => if e.1 = k then some e.2 else lookupKey rest k

/-- The top-level keys of a mapping, in entry order (Python `config.keys()`). -/
def keysOf {α : Type} (m : List (String × α)) : List String :=
  m.map Prod.fst

/-- The entries of `m2` whose key does not occur in `m1`. -/
def newEntries (m1 m2 : Cfg) : Cfg :=
  m2.filter (fun e => (lookupKey m1 e.1).isNone)

mutual

/-- Deep merge of two configuration values, modelling the external merge
engine used by the source (`OmegaConf.merge`): two mappings are merged key by
key, recursing on shared keys, keys only in one side passing through; for any
other pair of values the right-hand value replaces the left one. -/
def omegaMerge : CVal → CVal → CVal
  | .vmap m1, .vmap m2 => .vmap (mergeEntries m1 m2 ++ newEntries m1 m2)
  | _, v2 => v2

/-- Key-wise merge of the left mapping's entries against the right mapping. -/
def mergeEntries : List (String × CVal) → List (String × CVal) → List (String × CVal)
  | [], _ => []
  | e :: rest, m2 =>
    (match lookupKey m2 e.1 with
     | some v2 => (e.1, omegaMerge e.2 v2)
     | none => e) :: mergeEntries rest m2

end

/-- Deep merge at the level of top-level mappings (`OmegaConf.merge` applied
to two loaded files). -/
def omegaMergeCfg (m1 m2 : Cfg) : Cfg :=
  mergeEntries m1 m2 ++ newEntries m1 m2

/-- Python `dict.update`: every key of `env` replaces the same key of `base`
wholesale (in place, keeping the position of existing keys), keys new to
`env` are appended; this is the cross-directory shallow override of
`__getitem__` (`config.update(env_config)`). -/
def dictUpdate {α : Type} (base env : List (String × α)) : List (String × α) :=
  base.map (fun e =>
    match lookupKey env e.1 with
    | some v => (e.1, v)
    | none => e)
  ++ env.filter (fun e => (lookupKey base e.1).isNone)

/-- Lexicographic code-point comparison of character lists (the order Python
uses to compare strings). -/
def charListLe : List Char → List Char → Bool
  | [], _ => true
  | _ :: _, [] => false
  | a :: as, b :: bs => if a = b then charListLe as bs else decide (a < b)

/-- Python string comparison `a <= b`. -/
def strLe (a b : String) : Bool := charListLe a.data b.data

/-- Insert a string into an already sorted list (helper for `sortStrings`). -/
def insertSorted (s : String) : List String → List String
  | [] => [s]
  | t :: ts => if strLe s t then s :: t :: ts else t :: insertSorted s ts

/-- Ascending lexicographic sort of strings (Python `sorted`). -/
def sortStrings : List String → List String
  | [] => []
  | s :: ss => insertSorted s (sortStrings ss)

/-- The keys shared by two top-level key collections (Python set
intersection `config1 & config2`). -/
def keyOverlap (config1 config2 : List String) : List String :=
  config1.filter (fun k => decide (k ∈ config2))

/-- The sorted, comma-joined rendering of a set of overlapping keys,
truncated with an ellipsis when longer than 100 characters
(`_check_duplicates`, lines 258-260). -/
def joinedSortedKeys (overlapping_keys : List String) : String :=
  let sorted_keys := String.intercalate ", " (sortStrings overlapping_keys)
  if sorted_keys.length > 100 then sorted_keys.take 100 ++ "..." else sorted_keys

/-- The per-pair duplicate message of `_check_duplicates` (line 262). -/
def duplicateMessage (filepath1 filepath2 : String) (overlapping_keys : List String) : String :=
  s!"Duplicate keys found in {filepath1} and {filepath2}: {joinedSortedKeys overlapping_keys}"

/-- `OmegaConfLoader._check_duplicates` without the final raise: for every
unordered pair of distinct files, in list order, record a message when their
top-level key sets overlap; the caller raises when the collected list is
non-empty. -/
def _check_duplicates : List (String × List String) → List String
  | [] => []
  | f1 :: rest =>
    rest.filterMap (fun f2 =>
      let overlapping_keys := keyOverlap f1.2 f2.2
      if overlapping_keys.isEmpty then none
      else some (duplicateMessage f1.1 f2.1 overlapping_keys))
    ++ _check_duplicates rest

/-- A single-quote character as a string (used by Python message formatting). -/
def squote : String := String.mk [Char.ofNat 39]

/-- Python `repr` of a list of strings, as produced by an f-string holding a
list (for example the pattern list in the missing-configuration message). -/
def pyStrListRepr (xs : List String) : String :=
  "[" ++ String.intercalate ", " (xs.map (fun s => squote ++ s ++ squote)) ++ "]"

/-- The unknown-key message of `__getitem__` (lines 141-143). -/
def unknownKeyMessage (key : String) : String :=
  "No config patterns were found for " ++ squote ++ key ++ squote ++ " in your config loader"

/-- The missing-configuration-path message of `load_and_merge_dir_config`
(lines 199-202). -/
def missingPathMessage (conf_path : String) : String :=
  s!"Given configuration path either does not exist or is not a valid directory: {conf_path}"

/-- The missing-configuration message of `__getitem__` (lines 169-172). -/
def missingConfigMessage (base_path env_path : String) (patterns : List String) : String :=
  s!"No files of YAML or JSON format found in {base_path} or {env_path} matching the glob pattern(s): "
  ++ pyStrListRepr patterns

/-- The wrapped parse-error message of `load_and_merge_dir_config`
(lines 223-226): the problem-mark line and column are inserted verbatim. -/
def parseErrorMessage (config_filepath : String) (line cursor : Nat) : String :=
  s!"Invalid YAML or JSON file {config_filepath}, unable to read line {line}, position {cursor}."

/-- The index of the last occurrence of a character in a character list. -/
def lastIndexOf (c : Char) : List Char → Option Nat
  | [] => none
  | d :: rest =>
    match lastIndexOf c rest with
    | some i => some (i + 1)
    | none => if d = c then some 0 else none

/-- The final path component: the characters after the last slash. -/
def lastComponent (p : String) : String :=
  String.mk ((p.data.reverse.takeWhile (fun c => c ≠ Char.ofNat 47)).reverse)

/-- Python `pathlib.PurePath.suffix`: the extension of the final component,
present only when the last dot is neither the first nor the last character
of the component name. -/
def pySuffix (path : String) : String :=
  let cs := (lastComponent path).data
  match lastIndexOf (Char.ofNat 46) cs with
  | some i => if 0 < i ∧ i < cs.length - 1 then String.mk (cs.drop i) else ""
  | none => ""

/-- The abstract filesystem together with the external parsing engine:
directory test, glob expansion (already resolved to canonical absolute
paths), regular-file test, and parsing of one file into its top-level
mapping or a syntax-error problem mark `(line, column)` in the engine's own
convention. -/
structure FileSys : Type where
  isDir : String → Bool
  glob : String → String → List String
  isFile : String → Bool
  parse : String → Except (Nat × Nat) Cfg

/-- Modelled from the spec: the external structured-text engine (the YAML
parser used through the merge engine) is out of scope for the source and
reports syntax-error problem marks with zero-based line and column, so an
offending token at one-based line `L` and column `C` carries the mark
`(L - 1, C - 1)`. -/
def markOfOneBased (L C : Nat) : Nat × Nat := (L - 1, C - 1)

/-- `OmegaConfLoader._is_valid_config_path`: a regular file whose suffix is
one of the three recognized extensions. -/
def _is_valid_config_path (fs : FileSys) (path : String) : Bool :=
  fs.isFile path && [".yml", ".yaml", ".json"].contains (pySuffix path)

/-- The candidate-fragment computation of `load_and_merge_dir_config`
(lines 204-212): glob every pattern under the directory, deduplicate the
matches (the Python `set`, modelled as a first-occurrence deduplicated list
in an unspecified enumeration order), and keep the valid config files. -/
def candidateFiles (fs : FileSys) (conf_path : String) (patterns : List String) : List String :=
  let paths := (patterns.map (fun pat => fs.glob conf_path pat)).flatten
  let deduplicated_paths := paths.eraseDups
  deduplicated_paths.filter (fun p => _is_valid_config_path fs p)

/-- The error taxonomy of the loader: `KeyError`, `MissingConfigException`,
`ValueError` (duplicate keys) and the wrapped `ParserError`. -/
inductive KedroError : Type where
  | keyError : String → KedroError
  | missingConfig : String → KedroError
  | valueError : String → KedroError
  | parserError : String → KedroError
deriving DecidableEq, Repr

/-- The tree a file parses to, when it parses (helper for stating lemmas). -/
def parsedCfg (fs : FileSys) (p : String) : Cfg :=
  match fs.parse p with
  | .ok config => config
  | .error _ => []

/-- The parsing loop of `load_and_merge_dir_config` (lines 216-226): parse
the candidate files in order, collecting `config_per_file`, and re-raise the
first syntax error as a `ParserError` carrying the file path and the
problem-mark line and column verbatim. -/
def loadFiles (fs : FileSys) : List String → Except KedroError (List (String × Cfg))
  | [] => .ok []
  | p :: ps =>
    match fs.parse p with
    | .ok config =>
      match loadFiles fs ps with
      | .ok rest => .ok ((p, config) :: rest)
      | .error e => .error e
    | .error mark => .error (.parserError (parseErrorMessage p mark.1 mark.2))

/-- `seen_file_to_keys` (lines 228-230): each loaded file paired with its
top-level key set (a Python dict's keys are already unique, so the `set` is
the key list itself). -/
def seenOf (config_per_file : List (String × Cfg)) : List (String × List String) :=
  config_per_file.map (fun fc => (fc.1, keysOf fc.2))

/-- The per-directory merge policy (lines 234-238): no fragments give the
empty tree, a single fragment is returned verbatim, and two or more
fragments are merged left to right by the external engine
(`OmegaConf.merge(*aggregate_config)`). -/
def aggregate : List Cfg → Cfg
  | [] => []
  | [c] => c
  | c :: rest => rest.foldl omegaMergeCfg c

/-- `OmegaConfLoader.load_and_merge_dir_config`: directory check, candidate
discovery, parsing, duplicate detection (before any cross-file merge), then
the per-directory merge. -/
def load_and_merge_dir_config (fs : FileSys) (conf_path : String) (patterns : List String) :
    Except KedroError Cfg :=
  if fs.isDir conf_path then
    match loadFiles fs (candidateFiles fs conf_path patterns) with
    | .error e => .error e
    | .ok config_per_file =>
      match _check_duplicates (seenOf config_per_file) with
      | [] => .ok (aggregate (config_per_file.map Prod.snd))
      | d :: ds => .error (.valueError (String.intercalate "\n" (d :: ds)))
  else
    .error (.missingConfig (missingPathMessage conf_path))

/-- The built-in pattern table of `OmegaConfLoader.__init__` (lines 99-104). -/
def defaultConfigPatterns : List (String × List String) :=
  [ ("catalog", ["catalog*", "catalog*/**", "**/catalog*"]),
    ("parameters", ["parameters*", "parameters*/**", "**/parameters*"]),
    ("credentials", ["credentials*", "credentials*/**", "**/credentials*"]),
    ("logging", ["logging*", "logging*/**", "**/logging*"]) ]

/-- `self.config_patterns.update(config_patterns or {})` (line 105): caller
patterns overlaid on the defaults. -/
def mkConfigPatterns (user : List (String × List String)) : List (String × List String) :=
  dictUpdate defaultConfigPatterns user

/-- The loader state relevant to a lookup.  The `preset` table is modelled
from the spec: the dictionary storage inherited from
`AbstractConfigLoader` (not under the provided sources) holds the values a
caller has explicitly assigned on the instance, checked by `key in self`
before pattern resolution. -/
structure OmegaConfLoader : Type where
  conf_source : String
  env : Option String
  base_env : String
  default_run_env : String
  config_patterns : List (String × List String)
  preset : List (String × Cfg)

/-- `run_env = self.env or self.default_run_env` (line 152), with Python
truthiness: a missing or empty environment name falls back to the default. -/
def runEnv (L : OmegaConfLoader) : String :=
  match L.env with
  | some e => if e = "" then L.default_run_env else e
  | none => L.default_run_env

/-- `str(Path(a) / b)` for a relative second component. -/
def pathJoin (a b : String) : String := a ++ "/" ++ b

/-- `OmegaConfLoader.__getitem__`: explicit preset bypass, pattern lookup,
the two per-directory loads, the shallow base-to-environment override, and
the empty-result check.  (The debug log of overridden keys has no effect on
the returned value and is not modelled.) -/
def getitem (L : OmegaConfLoader) (fs : FileSys) (key : String) : Except KedroError Cfg :=
  match lookupKey L.preset key with
  | some value => .ok value
  | none =>
    match lookupKey L.config_patterns key with
    | none => .error (.keyError (unknownKeyMessage key))
    | some patterns =>
      let base_path := pathJoin L.conf_source L.base_env
      match load_and_merge_dir_config fs base_path patterns with
      | .error e => .error e
      | .ok base_config =>
        let env_path := pathJoin L.conf_source (runEnv L)
        match load_and_merge_dir_config fs env_path patterns with
        | .error e => .error e
        | .ok env_config =>
          let config := dictUpdate base_config env_config
          if config.isEmpty then
            .error (.missingConfig (missingConfigMessage base_path env_path patterns))
          else
            .ok config

/-- Two mappings are structurally identical as dictionaries: they associate
every key with the same value (Python dict equality is order-insensitive). -/
def cfgEquiv (c1 c2 : Cfg) : Prop := ∀ k, lookupKey c1 k = lookupKey c2 k

/-- Two lookup outcomes agree: both fail, or both succeed with structurally
identical trees. -/
def exceptEquiv : Except KedroError Cfg → Except KedroError Cfg → Prop
  | .ok c1, .ok c2 => cfgEquiv c1 c2
  | .error _, .error _ => True
  | _, _ => False

/-- Decidable top-level key disjointness of two mappings. -/
def keysDisjointB (m1 m2 : Cfg) : Bool :=
  m1.all (fun e => (lookupKey m2 e.1).isNone)

/-- The first value found for a key across a list of mappings. -/
def lookupFirst (cs : List Cfg) (k : String) : Option CVal :=
  match cs with
  | [] => none
  | c :: rest =>
    match lookupKey c k with
    | some v => some v
    | none => lookupFirst rest k

/-! ### Concrete fixtures -/

/-- A loader with one logical key `catalog` mapped to a single pattern. -/
def exLoader : OmegaConfLoader where
  conf_source := "/c"
  env := none
  base_env := "base"
  default_run_env := "local"
  config_patterns := [("catalog", ["catalog*"])]
  preset := []

/-- The loader of `exLoader` with an explicitly pre-set value for `catalog`. -/
def presetLoader : OmegaConfLoader :=
  { exLoader with preset := [("catalog", [("x", CVal.vint 42)])] }

/-- A loader whose key `empty` is registered with an empty pattern list. -/
def emptyPatLoader : OmegaConfLoader :=
  { exLoader with config_patterns := [("empty", [])] }

/-- A source tree whose base layer defines a=1, b=2 and whose run-environment
layer defines b=3, c=4, one fragment each. -/
def exFs : FileSys where
  isDir := fun p => p == "/c/base" || p == "/c/local"
  glob := fun cp pat =>
    if cp == "/c/base" && pat == "catalog*" then ["/c/base/catalog.yml"]
    else if cp == "/c/local" && pat == "catalog*" then ["/c/local/catalog.yml"]
    else []
  isFile := fun p => p == "/c/base/catalog.yml" || p == "/c/local/catalog.yml"
  parse := fun p =>
    if p == "/c/base/catalog.yml" then .ok [("a", CVal.vint 1), ("b", CVal.vint 2)]
    else if p == "/c/local/catalog.yml" then .ok [("b", CVal.vint 3), ("c", CVal.vint 4)]
    else .error (0, 0)

/-- A source tree whose base layer holds two fragments sharing top-level
key `b`. -/
def dupFs : FileSys where
  isDir := fun p => p == "/c/base" || p == "/c/local"
  glob := fun cp pat =>
    if cp == "/c/base" && pat == "catalog*" then
      ["/c/base/catalog.yml", "/c/base/catalog2.yml"]
    else []
  isFile := fun p => p == "/c/base/catalog.yml" || p == "/c/base/catalog2.yml"
  parse := fun p =>
    if p == "/c/base/catalog.yml" then .ok [("a", CVal.vint 1), ("b", CVal.vint 2)]
    else if p == "/c/base/catalog2.yml" then .ok [("b", CVal.vint 3), ("c", CVal.vint 4)]
    else .error (0, 0)

/-- Directory test shared by the two permuted filesystems. -/
def permIsDir : String → Bool := fun p => p == "/c/base" || p == "/c/local"

/-- File test shared by the two permuted filesystems. -/
def permIsFile : String → Bool :=
  fun p => p == "/c/base/cat1.yml" || p == "/c/base/cat2.yml"

/-- Parser shared by the two permuted filesystems: two fragments with
disjoint top-level keys. -/
def permParse : String → Except (Nat × Nat) Cfg := fun p =>
  if p == "/c/base/cat1.yml" then .ok [("a", CVal.vint 1)]
  else if p == "/c/base/cat2.yml" then .ok [("b", CVal.vint 2)]
  else .error (0, 0)

/-- A source tree enumerating the base fragments in one order. -/
def permFs1 : FileSys where
  isDir := permIsDir
  glob := fun cp pat =>
    if cp == "/c/base" && pat == "catalog*" then
      ["/c/base/cat1.yml", "/c/base/cat2.yml"]
    else []
  isFile := permIsFile
  parse := permParse

/-- The same source tree enumerating the base fragments in the opposite
order. -/
def permFs2 : FileSys where
  isDir := permIsDir
  glob := fun cp pat =>
    if cp == "/c/base" && pat == "catalog*" then
      ["/c/base/cat2.yml", "/c/base/cat1.yml"]
    else []
  isFile := permIsFile
  parse := permParse

/-- A source tree whose only base fragment is syntactically malformed, with
the engine problem mark at the very first token. -/
def badFs : FileSys where
  isDir := fun p => p == "/c/base" || p == "/c/local"
  glob := fun cp pat =>
    if cp == "/c/base" && pat == "catalog*" then ["/c/base/catalog.yml"] else []
  isFile := fun p => p == "/c/base/catalog.yml"
  parse := fun _ => .error (0, 0)

/-- A source tree with no base directory but an existing run-environment
directory holding a matching fragment. -/
def noBaseFs : FileSys where
  isDir := fun p => p == "/c/local"
  glob := fun cp pat =>
    if cp == "/c/local" && pat == "catalog*" then ["/c/local/catalog.yml"] else []
  isFile := fun p => p == "/c/local/catalog.yml"
  parse := fun p =>
    if p == "/c/local/catalog.yml" then .ok [("b", CVal.vint 3)] else .error (0, 0)

/-- A source tree with an existing base directory holding a matching
fragment but no run-environment directory. -/
def noEnvFs : FileSys where
  isDir := fun p => p == "/c/base"
  glob := fun cp pat =>
    if cp == "/c/base" && pat == "catalog*" then ["/c/base/catalog.yml"] else []
  isFile := fun p => p == "/c/base/catalog.yml"
  parse := fun p =>
    if p == "/c/base/catalog.yml" then .ok [("a", CVal.vint 1)] else .error (0, 0)

/-- A source tree where both directories exist but hold no files at all. -/
def emptyFs : FileSys where
  isDir := fun p => p == "/c/base" || p == "/c/local"
  glob := fun _ _ => []
  isFile := fun _ => false
  parse := fun _ => .error (0, 0)

/-! ### Association-list lookup lemmas -/

theorem lookupKey_append {α : Type} (l1 l2 : List (String × α)) (k : String) :
    lookupKey (l1 ++ l2) k =
      match lookupKey l1 k with
      | some v => some v
      | none => lookupKey l2 k := by
  induction l1 with
  | nil => rfl
  | cons hd tl ih =>
    by_cases h : hd.1 = k <;> simp [lookupKey, h, ih]

theorem lookupKey_isSome_of_mem {α : Type} {m : List (String × α)} {e : String × α}
    (he : e ∈ m) : (lookupKey m e.1).isSome := by
  induction m with
  | nil => cases he
  | cons hd tl ih =>
    rcases List.mem_cons.mp he with rfl | htl
    · simp [lookupKey]
    · by_cases h : hd.1 = e.1 <;> simp [lookupKey, h, ih htl]

theorem lookupKey_eq_none_iff {α : Type} (m : List (String × α)) (k : String) :
    lookupKey m k = none ↔ k ∉ keysOf m := by
  induction m with
  | nil => simp [lookupKey, keysOf]
  | cons hd tl ih =>
    by_cases h : hd.1 = k
    · simp [lookupKey, keysOf, h]
    · simp [lookupKey, keysOf, h, ih]
      simp [keysOf] at ih
      tauto

theorem lookupKey_isSome_iff_mem {α : Type} (m : List (String × α)) (k : String) :
    (lookupKey m k).isSome ↔ k ∈ keysOf m := by
  constructor
  · intro h
    by_contra hk
    rw [(lookupKey_eq_none_iff m k).mpr hk] at h
    simp at h
  · intro hk
    cases hl : lookupKey m k with
    | none => exact absurd ((lookupKey_eq_none_iff m k).mp hl) (not_not_intro hk)
    | some _ => rfl

theorem lookupKey_filterKey {α : Type} (p : String → Bool) (l : List (String × α)) (k : String) :
    lookupKey (l.filter (fun e => p e.1)) k = if p k then lookupKey l k else none := by
  induction l with
  | nil => simp [lookupKey]
  | cons hd tl ih =>
    by_cases hk : hd.1 = k
    · subst hk
      by_cases hp : p hd.1 <;> simp [List.filter_cons, hp, lookupKey, ih]
    · by_cases hp : p hd.1 <;> simp [List.filter_cons, hp, lookupKey, hk, ih]

theorem lookupKey_updateMap {α : Type} (env b : List (String × α)) (k : String) :
    lookupKey (b.map (fun e =>
      match lookupKey env e.1 with
      | some v => (e.1, v)
      | none => e)) k =
      match lookupKey b k with
      | some v => some (match lookupKey env k with | some w => w | none => v)
      | none => none := by
  induction b with
  | nil => rfl
  | cons hd tl ih =>
    by_cases hk : hd.1 = k
    · subst hk
      cases henv : lookupKey env hd.1 <;> simp [lookupKey, henv, ih]
    · cases henv : lookupKey env hd.1 <;> simp [lookupKey, henv, hk, ih]

theorem lookupKey_dictUpdate {α : Type} (b e : List (String × α)) (k : String) :
    lookupKey (dictUpdate b e) k =
      match lookupKey e k with
      | some v => some v
      | none => lookupKey b k := by
  unfold dictUpdate
  rw [lookupKey_append, lookupKey_updateMap]
  have hfil := lookupKey_filterKey (fun s => (lookupKey b s).isNone) e k
  cases hb : lookupKey b k with
  | none =>
    simp only [hb]
    cases he : lookupKey e k <;> simp_all
  | some v =>
    simp only [hb]
    cases he : lookupKey e k <;> simp_all

/-! ### Key disjointness and the disjoint merge -/

theorem keysDisjointB_iff (m1 m2 : Cfg) :
    keysDisjointB m1 m2 = true ↔ ∀ e ∈ m1, lookupKey m2 e.1 = none := by
  unfold keysDisjointB
  rw [List.all_eq_true]
  constructor
  · intro h e he
    exact Option.isNone_iff_eq_none.mp (h e he)
  · intro h e he
    exact Option.isNone_iff_eq_none.mpr (h e he)

theorem keysDisjointB_symm {m1 m2 : Cfg} (h : keysDisjointB m1 m2 = true) :
    keysDisjointB m2 m1 = true := by
  rw [keysDisjointB_iff] at h ⊢
  intro e he
  rw [lookupKey_eq_none_iff]
  intro hk
  have hsome : (lookupKey m1 e.1).isSome := (lookupKey_isSome_iff_mem m1 e.1).mpr hk
  rcases List.mem_map.mp hk with ⟨e1, he1, hke⟩
  have : lookupKey m2 e1.1 = none := h e1 he1
  rw [hke] at this
  have : (lookupKey m2 e.1).isSome := lookupKey_isSome_of_mem he
  simp_all

theorem mergeEntries_eq_of_disjoint {m1 m2 : Cfg}
    (h : ∀ e ∈ m1, lookupKey m2 e.1 = none) : mergeEntries m1 m2 = m1 := by
  induction m1 with
  | nil => rfl
  | cons hd tl ih =>
    rw [mergeEntries, h hd (List.mem_cons_self hd tl)]
    rw [ih (fun e he => h e (List.mem_cons_of_mem hd he))]

theorem newEntries_eq_of_disjoint {m1 m2 : Cfg}
    (h : ∀ e ∈ m2, lookupKey m1 e.1 = none) : newEntries m1 m2 = m2 := by
  unfold newEntries
  rw [List.filter_eq_self]
  intro e he
  rw [h e he]
  rfl

theorem omegaMergeCfg_disjoint {m1 m2 : Cfg} (h : keysDisjointB m1 m2 = true) :
    omegaMergeCfg m1 m2 = m1 ++ m2 := by
  unfold omegaMergeCfg
  rw [mergeEntries_eq_of_disjoint ((keysDisjointB_iff m1 m2).mp h),
    newEntries_eq_of_disjoint ((keysDisjointB_iff m2 m1).mp (keysDisjointB_symm h))]

theorem keysDisjointB_append_left {a b r : Cfg} (ha : keysDisjointB a r = true)
    (hb : keysDisjointB b r = true) : keysDisjointB (a ++ b) r = true := by
  rw [keysDisjointB_iff] at ha hb ⊢
  intro e he
  rcases List.mem_append.mp he with h1 | h2
  · exact ha e h1
  · exact hb e h2

theorem foldl_omegaMergeCfg_flatten (cs : List Cfg) :
    ∀ acc : Cfg, (∀ c ∈ cs, keysDisjointB acc c = true) →
    cs.Pairwise (fun a b => keysDisjointB a b = true) →
    cs.foldl omegaMergeCfg acc = acc ++ cs.flatten := by
  induction cs with
  | nil => intro acc _ _; simp
  | cons hd tl ih =>
    intro acc hacc hpw
    rw [List.foldl_cons, omegaMergeCfg_disjoint (hacc hd (List.mem_cons_self hd tl))]
    rw [List.pairwise_cons] at hpw
    rw [ih (acc ++ hd)
      (fun c hc => keysDisjointB_append_left (hacc c (List.mem_cons_of_mem hd hc)) (hpw.1 c hc))
      hpw.2]
    simp

theorem aggregate_eq_flatten {cs : List Cfg}
    (h : cs.Pairwise (fun a b => keysDisjointB a b = true)) :
    aggregate cs = cs.flatten := by
  match cs with
  | [] => rfl
  | [c] => simp [aggregate]
  | c1 :: c2 :: rest =>
    rw [List.pairwise_cons] at h
    rw [show aggregate (c1 :: c2 :: rest) = (c2 :: rest).foldl omegaMergeCfg c1 from rfl]
    rw [foldl_omegaMergeCfg_flatten (c2 :: rest) c1 h.1 h.2]
    simp

/-! ### Lookup in a merged directory result -/

theorem lookupKey_flatten (cs : List Cfg) (k : String) :
    lookupKey cs.flatten k = lookupFirst cs k := by
  induction cs with
  | nil => rfl
  | cons hd tl ih =>
    rw [List.flatten_cons, lookupKey_append]
    cases h : lookupKey hd k <;> simp [lookupFirst, h, ih]

theorem lookupFirst_eq_none_iff (cs : List Cfg) (k : String) :
    lookupFirst cs k = none ↔ ∀ c ∈ cs, lookupKey c k = none := by
  induction cs with
  | nil => simp [lookupFirst]
  | cons hd tl ih => cases h : lookupKey hd k <;> simp [lookupFirst, h, ih]

theorem lookupFirst_some_exists {cs : List Cfg} {k : String} {v : CVal}
    (h : lookupFirst cs k = some v) : ∃ c ∈ cs, lookupKey c k = some v := by
  induction cs with
  | nil => simp [lookupFirst] at h
  | cons hd tl ih =>
    cases hh : lookupKey hd k with
    | some w =>
      simp only [lookupFirst, hh] at h
      exact ⟨hd, List.mem_cons_self hd tl, by rw [hh, h]⟩
    | none =>
      simp only [lookupFirst, hh] at h
      rcases ih h with ⟨c, hc, hck⟩
      exact ⟨c, List.mem_cons_of_mem hd hc, hck⟩

theorem lookupFirst_eq_of_mem {cs : List Cfg} {c : Cfg} {k : String}
    (hpw : cs.Pairwise (fun a b => keysDisjointB a b = true))
    (hc : c ∈ cs) (hs : (lookupKey c k).isSome) :
    lookupFirst cs k = lookupKey c k := by
  induction cs with
  | nil => cases hc
  | cons hd tl ih =>
    rw [List.pairwise_cons] at hpw
    rcases List.mem_cons.mp hc with rfl | htl
    · cases h : lookupKey c k with
      | none => rw [h] at hs; simp at hs
      | some v => simp [lookupFirst, h]
    · have hdnone : lookupKey hd k = none := by
        rw [lookupKey_eq_none_iff]
        intro hk
        have hdisj := hpw.1 c htl
        rw [keysDisjointB_iff] at hdisj
        rcases List.mem_map.mp hk with ⟨e, he, hke⟩
        have hnone := hdisj e he
        rw [hke] at hnone
        rw [hnone] at hs
        simp at hs
      simp [lookupFirst, hdnone, ih hpw.2 htl]

theorem lookupFirst_perm {cs cs2 : List Cfg} (hperm : cs.Perm cs2)
    (hpw : cs.Pairwise (fun a b => keysDisjointB a b = true)) (k : String) :
    lookupFirst cs k = lookupFirst cs2 k := by
  have hpw2 : cs2.Pairwise (fun a b => keysDisjointB a b = true) :=
    (hperm.pairwise_iff (fun hab => keysDisjointB_symm hab)).mp hpw
  cases h : lookupFirst cs k with
  | none =>
    symm
    rw [lookupFirst_eq_none_iff]
    intro c hc
    exact (lookupFirst_eq_none_iff cs k).mp h c (hperm.mem_iff.mpr hc)
  | some v =>
    rcases lookupFirst_some_exists h with ⟨c, hc, hck⟩
    rw [lookupFirst_eq_of_mem hpw2 (hperm.subset hc) (by rw [hck]; rfl), hck]

theorem aggregate_perm_equiv {cs cs2 : List Cfg} (hperm : cs.Perm cs2)
    (hpw : cs.Pairwise (fun a b => keysDisjointB a b = true)) :
    cfgEquiv (aggregate cs) (aggregate cs2) := by
  intro k
  have hpw2 : cs2.Pairwise (fun a b => keysDisjointB a b = true) :=
    (hperm.pairwise_iff (fun hab => keysDisjointB_symm hab)).mp hpw
  rw [aggregate_eq_flatten hpw, aggregate_eq_flatten hpw2,
    lookupKey_flatten, lookupKey_flatten]
  exact lookupFirst_perm hperm hpw k

/-! ### The parsing loop -/

theorem loadFiles_ok_of_all {fs : FileSys} {l : List String}
    (h : ∀ p ∈ l, (fs.parse p).isOk) :
    loadFiles fs l = .ok (l.map (fun p => (p, parsedCfg fs p))) := by
  induction l with
  | nil => rfl
  | cons p ps ih =>
    have hp := h p (List.mem_cons_self p ps)
    cases hpp : fs.parse p with
    | error e => rw [hpp] at hp; simp [Except.isOk, Except.toBool] at hp
    | ok config =>
      rw [loadFiles, hpp, ih (fun q hq => h q (List.mem_cons_of_mem p hq))]
      simp [parsedCfg, hpp]

theorem loadFiles_error_of_exists {fs : FileSys} {l : List String}
    (h : ∃ p ∈ l, (fs.parse p).isOk = false) :
    ∃ msg, loadFiles fs l = .error (.parserError msg) := by
  induction l with
  | nil => simp at h
  | cons p ps ih =>
    cases hpp : fs.parse p with
    | error mark => exact ⟨parseErrorMessage p mark.1 mark.2, by rw [loadFiles, hpp]⟩
    | ok config =>
      have hex : ∃ q ∈ ps, (fs.parse q).isOk = false := by
        rcases h with ⟨q, hq, hqf⟩
        rcases List.mem_cons.mp hq with rfl | hqs
        · rw [hpp] at hqf; simp [Except.isOk, Except.toBool] at hqf
        · exact ⟨q, hqs, hqf⟩
      rcases ih hex with ⟨msg, hmsg⟩
      exact ⟨msg, by rw [loadFiles, hpp, hmsg]⟩

theorem loadFiles_first_error {fs : FileSys} {l1 l2 : List String} {p : String}
    {line cursor : Nat} (hok : ∀ q ∈ l1, (fs.parse q).isOk)
    (herr : fs.parse p = .error (line, cursor)) :
    loadFiles fs (l1 ++ p :: l2) = .error (.parserError (parseErrorMessage p line cursor)) := by
  induction l1 with
  | nil => rw [List.nil_append, loadFiles, herr]
  | cons q qs ih =>
    have hq := hok q (List.mem_cons_self q qs)
    cases hqq : fs.parse q with
    | error e => rw [hqq] at hq; simp [Except.isOk, Except.toBool] at hq
    | ok config =>
      rw [List.cons_append, loadFiles, hqq,
        ih (fun r hr => hok r (List.mem_cons_of_mem q hr))]

/-! ### The duplicate detector -/

theorem check_duplicates_eq_nil_iff (seen : List (String × List String)) :
    _check_duplicates seen = [] ↔
      seen.Pairwise (fun a b => keyOverlap a.2 b.2 = []) := by
  induction seen with
  | nil => simp [_check_duplicates]
  | cons f1 rest ih =>
    rw [_check_duplicates, List.append_eq_nil, List.pairwise_cons, ← ih]
    constructor
    · intro h
      refine ⟨fun b hb => ?_, h.2⟩
      have hfb := List.filterMap_eq_nil_iff.mp h.1 b hb
      by_cases hc : (keyOverlap f1.2 b.2).isEmpty
      · exact List.isEmpty_iff.mp hc
      · rw [if_neg hc] at hfb; cases hfb
    · intro h
      refine ⟨List.filterMap_eq_nil_iff.mpr (fun b hb => ?_), h.2⟩
      rw [if_pos (List.isEmpty_iff.mpr (h.1 b hb))]

theorem keyOverlap_nil_comm {a b : List String} (h : keyOverlap a b = []) :
    keyOverlap b a = [] := by
  unfold keyOverlap at h ⊢
  rw [List.filter_eq_nil_iff] at h ⊢
  intro k hk
  simp only [decide_eq_true_eq]
  intro hka
  exact absurd (by simpa using h k hka) (not_not_intro hk)

theorem keyOverlap_nil_iff (c1 c2 : Cfg) :
    keyOverlap (keysOf c1) (keysOf c2) = [] ↔ keysDisjointB c1 c2 = true := by
  unfold keyOverlap
  rw [List.filter_eq_nil_iff, keysDisjointB_iff]
  constructor
  · intro h e he
    rw [lookupKey_eq_none_iff]
    intro hk2
    have hk1 : e.1 ∈ keysOf c1 := List.mem_map.mpr ⟨e, he, rfl⟩
    exact absurd (by simpa using hk2) (by simpa using h e.1 hk1)
  · intro h k hk1
    rcases List.mem_map.mp hk1 with ⟨e, he, hke⟩
    have hnone := h e he
    rw [hke, lookupKey_eq_none_iff] at hnone
    simpa using hnone

theorem duplicateMessage_mem_check {s1 s2 s3 : List (String × List String)}
    {f1 f2 : String × List String} (hov : keyOverlap f1.2 f2.2 ≠ []) :
    duplicateMessage f1.1 f2.1 (keyOverlap f1.2 f2.2) ∈
      _check_duplicates (s1 ++ f1 :: s2 ++ f2 :: s3) := by
  induction s1 with
  | nil =>
    rw [List.nil_append]
    simp only [_check_duplicates]
    apply List.mem_append_left
    apply List.mem_filterMap.mpr
    refine ⟨f2, by simp, ?_⟩
    rw [if_neg (by simpa [List.isEmpty_iff] using hov)]
  | cons g gs ih =>
    rw [List.cons_append]
    simp only [_check_duplicates]
    exact List.mem_append_right _ ih

/-! ### Unfolding the per-directory load -/

theorem load_dir_not_dir {fs : FileSys} {cp : String} {pats : List String}
    (hdir : fs.isDir cp = false) :
    load_and_merge_dir_config fs cp pats = .error (.missingConfig (missingPathMessage cp)) := by
  simp [load_and_merge_dir_config, hdir]

theorem load_dir_load_error {fs : FileSys} {cp : String} {pats : List String}
    {e : KedroError} (hdir : fs.isDir cp = true)
    (hload : loadFiles fs (candidateFiles fs cp pats) = .error e) :
    load_and_merge_dir_config fs cp pats = .error e := by
  simp [load_and_merge_dir_config, hdir, hload]

theorem load_dir_duplicates {fs : FileSys} {cp : String} {pats : List String}
    {cpf : List (String × Cfg)} {d : String} {ds : List String}
    (hdir : fs.isDir cp = true)
    (hload : loadFiles fs (candidateFiles fs cp pats) = .ok cpf)
    (hdup : _check_duplicates (seenOf cpf) = d :: ds) :
    load_and_merge_dir_config fs cp pats =
      .error (.valueError (String.intercalate "\n" (d :: ds))) := by
  simp [load_and_merge_dir_config, hdir, hload, hdup]

theorem load_dir_ok {fs : FileSys} {cp : String} {pats : List String}
    {cpf : List (String × Cfg)} (hdir : fs.isDir cp = true)
    (hload : loadFiles fs (candidateFiles fs cp pats) = .ok cpf)
    (hdup : _check_duplicates (seenOf cpf) = []) :
    load_and_merge_dir_config fs cp pats = .ok (aggregate (cpf.map Prod.snd)) := by
  simp [load_and_merge_dir_config, hdir, hload, hdup]

theorem cfg_isEmpty_iff_lookup_none (c : Cfg) :
    c.isEmpty = true ↔ ∀ k, lookupKey c k = none := by
  cases c with
  | nil => simp [lookupKey]
  | cons hd tl =>
    constructor
    · intro h; simp [List.isEmpty] at h
    · intro h
      have hh := h hd.1
      simp [lookupKey] at hh

/-! ### Structural equivalence of results -/

theorem cfgEquiv_refl (c : Cfg) : cfgEquiv c c := fun _ => rfl

theorem dictUpdate_equiv {b1 b2 e1 e2 : Cfg} (hb : cfgEquiv b1 b2) (he : cfgEquiv e1 e2) :
    cfgEquiv (dictUpdate b1 e1) (dictUpdate b2 e2) := by
  intro k
  rw [lookupKey_dictUpdate, lookupKey_dictUpdate, hb k, he k]

theorem isEmpty_eq_of_equiv {c1 c2 : Cfg} (h : cfgEquiv c1 c2) :
    c1.isEmpty = c2.isEmpty := by
  have hiff : c1.isEmpty = true ↔ c2.isEmpty = true := by
    rw [cfg_isEmpty_iff_lookup_none, cfg_isEmpty_iff_lookup_none]
    constructor
    · intro hh k; rw [← h k]; exact hh k
    · intro hh k; rw [h k]; exact hh k
  cases hb1 : c1.isEmpty <;> cases hb2 : c2.isEmpty <;> simp_all

/-- Loading one directory is invariant under the enumeration order of its
candidate fragments: with the same directory status, the same file contents,
and candidate lists that are permutations of one another, the two runs both
fail or both produce structurally identical trees. -/
theorem load_dir_enum_invariant (fs1 fs2 : FileSys) (cp : String) (pats : List String)
    (hdir : fs1.isDir cp = fs2.isDir cp)
    (hparse : ∀ p, fs1.parse p = fs2.parse p)
    (hperm : (candidateFiles fs1 cp pats).Perm (candidateFiles fs2 cp pats)) :
    exceptEquiv (load_and_merge_dir_config fs1 cp pats)
      (load_and_merge_dir_config fs2 cp pats) := by
  cases hd2 : fs2.isDir cp with
  | false =>
    rw [load_dir_not_dir (hdir.trans hd2), load_dir_not_dir hd2]
    trivial
  | true =>
    have hd1 : fs1.isDir cp = true := hdir.trans hd2
    by_cases hall : ∀ p ∈ candidateFiles fs1 cp pats, (fs1.parse p).isOk
    · have hall2 : ∀ p ∈ candidateFiles fs2 cp pats, (fs2.parse p).isOk := by
        intro p hp
        rw [← hparse p]
        exact hall p (hperm.mem_iff.mpr hp)
      have hpc : parsedCfg fs2 = parsedCfg fs1 := by
        funext p
        unfold parsedCfg
        rw [hparse p]
      have hload1 := loadFiles_ok_of_all hall
      have hload2 := loadFiles_ok_of_all hall2
      rw [hpc] at hload2
      have hpermCpf :
          ((candidateFiles fs1 cp pats).map (fun p => (p, parsedCfg fs1 p))).Perm
            ((candidateFiles fs2 cp pats).map (fun p => (p, parsedCfg fs1 p))) :=
        hperm.map _
      have hpermSeen :
          (seenOf ((candidateFiles fs1 cp pats).map (fun p => (p, parsedCfg fs1 p)))).Perm
            (seenOf ((candidateFiles fs2 cp pats).map (fun p => (p, parsedCfg fs1 p)))) :=
        hpermCpf.map _
      have hdupIff :
          _check_duplicates (seenOf ((candidateFiles fs1 cp pats).map
              (fun p => (p, parsedCfg fs1 p)))) = [] ↔
          _check_duplicates (seenOf ((candidateFiles fs2 cp pats).map
              (fun p => (p, parsedCfg fs1 p)))) = [] := by
        rw [check_duplicates_eq_nil_iff, check_duplicates_eq_nil_iff]
        exact hpermSeen.pairwise_iff (fun hab => keyOverlap_nil_comm hab)
      cases hdup1 : _check_duplicates (seenOf ((candidateFiles fs1 cp pats).map
          (fun p => (p, parsedCfg fs1 p)))) with
      | nil =>
        have hdup2 := hdupIff.mp hdup1
        rw [load_dir_ok hd1 hload1 hdup1, load_dir_ok hd2 hload2 hdup2]
        show cfgEquiv _ _
        have hpwSeen : (seenOf ((candidateFiles fs1 cp pats).map
            (fun p => (p, parsedCfg fs1 p)))).Pairwise
              (fun a b => keyOverlap a.2 b.2 = []) :=
          (check_duplicates_eq_nil_iff _).mp hdup1
        have hpwCfg : (((candidateFiles fs1 cp pats).map
            (fun p => (p, parsedCfg fs1 p))).map Prod.snd).Pairwise
              (fun a b => keysDisjointB a b = true) := by
          unfold seenOf at hpwSeen
          rw [List.pairwise_map] at hpwSeen
          rw [List.pairwise_map]
          exact hpwSeen.imp (fun hab => (keyOverlap_nil_iff _ _).mp hab)
        exact aggregate_perm_equiv (hpermCpf.map Prod.snd) hpwCfg
      | cons d ds =>
        have hdup2ne : _check_duplicates (seenOf ((candidateFiles fs2 cp pats).map
            (fun p => (p, parsedCfg fs1 p)))) ≠ [] := by
          intro hnil
          rw [hdupIff.mpr hnil] at hdup1
          cases hdup1
        cases hdup2 : _check_duplicates (seenOf ((candidateFiles fs2 cp pats).map
            (fun p => (p, parsedCfg fs1 p)))) with
        | nil => exact absurd hdup2 hdup2ne
        | cons d2 ds2 =>
          rw [load_dir_duplicates hd1 hload1 hdup1, load_dir_duplicates hd2 hload2 hdup2]
          trivial
    · have hex1 : ∃ p ∈ candidateFiles fs1 cp pats, (fs1.parse p).isOk = false := by
        push_neg at hall
        rcases hall with ⟨p, hp, hpf⟩
        exact ⟨p, hp, by simpa using hpf⟩
      have hex2 : ∃ p ∈ candidateFiles fs2 cp pats, (fs2.parse p).isOk = false := by
        rcases hex1 with ⟨p, hp, hpf⟩
        exact ⟨p, hperm.mem_iff.mp hp, by rw [← hparse p]; exact hpf⟩
      rcases loadFiles_error_of_exists hex1 with ⟨m1, hm1⟩
      rcases loadFiles_error_of_exists hex2 with ⟨m2, hm2⟩
      rw [load_dir_load_error hd1 hm1, load_dir_load_error hd2 hm2]
      trivial

/-- C3: for a fixed logical key and an unchanged set of fragment files (same
directory statuses, same parse results, candidate lists that are
permutations of one another), two runs of the same lookup both fail or both
succeed with structurally identical result trees — the lookup result is a
deterministic function of the file contents, not of the filesystem
enumeration order. -/
theorem c3_lookup_enumeration_independent (L : OmegaConfLoader) (key : String) (pats : List String)
    (fs1 fs2 : FileSys)
    (hpat : lookupKey L.config_patterns key = some pats)
    (hdirB : fs1.isDir (pathJoin L.conf_source L.base_env)
      = fs2.isDir (pathJoin L.conf_source L.base_env))
    (hdirE : fs1.isDir (pathJoin L.conf_source (runEnv L))
      = fs2.isDir (pathJoin L.conf_source (runEnv L)))
    (hparse : ∀ p, fs1.parse p = fs2.parse p)
    (hpermB : (candidateFiles fs1 (pathJoin L.conf_source L.base_env) pats).Perm
      (candidateFiles fs2 (pathJoin L.conf_source L.base_env) pats))
    (hpermE : (candidateFiles fs1 (pathJoin L.conf_source (runEnv L)) pats).Perm
      (candidateFiles fs2 (pathJoin L.conf_source (runEnv L)) pats)) :
    exceptEquiv (getitem L fs1 key) (getitem L fs2 key) := by
  unfold getitem
  cases hpre : lookupKey L.preset key with
  | some v => exact cfgEquiv_refl v
  | none =>
    rw [hpat]
    have hbase := load_dir_enum_invariant fs1 fs2 (pathJoin L.conf_source L.base_env)
      pats hdirB hparse hpermB
    cases hb1 : load_and_merge_dir_config fs1 (pathJoin L.conf_source L.base_env) pats with
    | error e1 =>
      cases hb2 : load_and_merge_dir_config fs2 (pathJoin L.conf_source L.base_env) pats with
      | error e2 =>
        simp only [hb1, hb2]
        trivial
      | ok b2 =>
        rw [hb1, hb2] at hbase
        exact hbase.elim
    | ok b1 =>
      cases hb2 : load_and_merge_dir_config fs2 (pathJoin L.conf_source L.base_env) pats with
      | error e2 =>
        rw [hb1, hb2] at hbase
        exact hbase.elim
      | ok b2 =>
        rw [hb1, hb2] at hbase
        have henv := load_dir_enum_invariant fs1 fs2 (pathJoin L.conf_source (runEnv L))
          pats hdirE hparse hpermE
        cases he1 : load_and_merge_dir_config fs1 (pathJoin L.conf_source (runEnv L)) pats with
        | error f1 =>
          cases he2 : load_and_merge_dir_config fs2 (pathJoin L.conf_source (runEnv L)) pats with
          | error f2 =>
            simp only [hb1, hb2, he1, he2]
            trivial
          | ok v2 =>
            rw [he1, he2] at henv
            exact henv.elim
        | ok v1 =>
          cases he2 : load_and_merge_dir_config fs2 (pathJoin L.conf_source (runEnv L)) pats with
          | error f2 =>
            rw [he1, he2] at henv
            exact henv.elim
          | ok v2 =>
            rw [he1, he2] at henv
            have hcfg : cfgEquiv (dictUpdate b1 v1) (dictUpdate b2 v2) :=
              dictUpdate_equiv hbase henv
            have hie := isEmpty_eq_of_equiv hcfg
            cases hie2 : (dictUpdate b2 v2).isEmpty with
            | true =>
              rw [hie2] at hie
              simp only [hb1, hb2, he1, he2, hie, hie2]
              trivial
            | false =>
              rw [hie2] at hie
              simp only [hb1, hb2, he1, he2, hie, hie2]
              exact hcfg

/-- Witness for C3: the same source tree enumerated in two different orders
(two disjoint base fragments, swapped by the glob) yields equivalent lookup
results. -/
theorem c3_lookup_enumeration_independent_witness :
    exceptEquiv (getitem exLoader permFs1 "catalog") (getitem exLoader permFs2 "catalog") :=
  c3_lookup_enumeration_independent exLoader "catalog" ["catalog*"] permFs1 permFs2
    rfl rfl rfl (fun _ => rfl) (by decide) (by decide)

/-- C1: the composed result of a lookup is the base tree with every
top-level key present in the environment tree replaced wholesale by the
environment value (shallow, top-level override), keys present in only one
tree passing through unchanged; in particular a base defining a=1, b=2
composed with an environment defining b=3, c=4 is exactly a=1, b=3, c=4. -/
theorem c1_shallow_override :
    (∀ b e : Cfg, ∀ k : String,
      (∀ v : CVal, lookupKey e k = some v → lookupKey (dictUpdate b e) k = some v)
      ∧ (lookupKey e k = none → lookupKey (dictUpdate b e) k = lookupKey b k))
    ∧ dictUpdate [("a", CVal.vint 1), ("b", CVal.vint 2)]
        [("b", CVal.vint 3), ("c", CVal.vint 4)]
        = [("a", CVal.vint 1), ("b", CVal.vint 3), ("c", CVal.vint 4)]
    ∧ (∀ (L : OmegaConfLoader) (fs : FileSys) (key : String) (patterns : List String)
        (base_config env_config : Cfg),
        lookupKey L.preset key = none →
        lookupKey L.config_patterns key = some patterns →
        load_and_merge_dir_config fs (pathJoin L.conf_source L.base_env) patterns
          = .ok base_config →
        load_and_merge_dir_config fs (pathJoin L.conf_source (runEnv L)) patterns
          = .ok env_config →
        (dictUpdate base_config env_config).isEmpty = false →
        getitem L fs key = .ok (dictUpdate base_config env_config)) := by
  refine ⟨fun b e k => ⟨fun v hv => ?_, fun hn => ?_⟩, rfl, ?_⟩
  · simp only [lookupKey_dictUpdate, hv]
  · simp only [lookupKey_dictUpdate, hn]
  intro L fs key patterns b e hpre hpat hb he hne
  simp [getitem, hpre, hpat, hb, he, hne]

/-- Witness for C1: the full pipeline on the spec's concrete example. -/
theorem c1_shallow_override_witness :
    getitem exLoader exFs "catalog"
      = .ok (dictUpdate [("a", CVal.vint 1), ("b", CVal.vint 2)]
          [("b", CVal.vint 3), ("c", CVal.vint 4)]) :=
  c1_shallow_override.2.2 exLoader exFs "catalog" ["catalog*"] _ _ rfl rfl rfl rfl rfl

/-- C2: when two distinct fragments of one directory share a top-level key,
the per-directory load fails (before any cross-file merge) with a
`ValueError` whose message is the newline-joined concatenation of the
per-pair duplicate messages, and the offending pair's message — naming both
file paths and the sorted, comma-joined, 100-character-truncated overlap —
is among them. -/
theorem c2_duplicate_keys_error (fs : FileSys) (conf_path : String) (patterns : List String)
    (cpf : List (String × Cfg)) (s1 s2 s3 : List (String × List String))
    (f1 f2 : String × List String)
    (hdir : fs.isDir conf_path = true)
    (hload : loadFiles fs (candidateFiles fs conf_path patterns) = .ok cpf)
    (hshape : seenOf cpf = s1 ++ f1 :: s2 ++ f2 :: s3)
    (hov : keyOverlap f1.2 f2.2 ≠ []) :
    load_and_merge_dir_config fs conf_path patterns
      = .error (.valueError (String.intercalate "\n" (_check_duplicates (seenOf cpf))))
    ∧ duplicateMessage f1.1 f2.1 (keyOverlap f1.2 f2.2) ∈ _check_duplicates (seenOf cpf) := by
  have hmem : duplicateMessage f1.1 f2.1 (keyOverlap f1.2 f2.2)
      ∈ _check_duplicates (seenOf cpf) := by
    rw [hshape]
    exact duplicateMessage_mem_check hov
  refine ⟨?_, hmem⟩
  cases hdup : _check_duplicates (seenOf cpf) with
  | nil => rw [hdup] at hmem; cases hmem
  | cons d ds =>
    exact load_dir_duplicates hdir hload hdup

/-- Witness for C2: two base fragments sharing key `b` produce exactly the
documented duplicate-key error. -/
theorem c2_duplicate_keys_error_witness :
    load_and_merge_dir_config dupFs "/c/base" ["catalog*"]
      = .error (.valueError
          "Duplicate keys found in /c/base/catalog.yml and /c/base/catalog2.yml: b")
    ∧ "Duplicate keys found in /c/base/catalog.yml and /c/base/catalog2.yml: b"
      ∈ _check_duplicates (seenOf
          [("/c/base/catalog.yml", [("a", CVal.vint 1), ("b", CVal.vint 2)]),
           ("/c/base/catalog2.yml", [("b", CVal.vint 3), ("c", CVal.vint 4)])]) :=
  c2_duplicate_keys_error dupFs "/c/base" ["catalog*"]
    [("/c/base/catalog.yml", [("a", CVal.vint 1), ("b", CVal.vint 2)]),
     ("/c/base/catalog2.yml", [("b", CVal.vint 3), ("c", CVal.vint 4)])]
    [] [] []
    ("/c/base/catalog.yml", ["a", "b"]) ("/c/base/catalog2.yml", ["b", "c"])
    rfl rfl rfl (by decide)

/-- C4 counterexample: the claim says the parse-error message states the
ONE-based line and column of the offending token.  For a fragment whose
offending token sits at one-based line 1, column 1 the engine mark is
`(0, 0)`, and the raised message reads `line 0, position 0` — it does not
contain the one-based rendering `line 1, position 1`. -/
theorem c4_counterexample :
    badFs.parse "/c/base/catalog.yml" = .error (markOfOneBased 1 1)
    ∧ getitem exLoader badFs "catalog"
        = .error (.parserError (parseErrorMessage "/c/base/catalog.yml" 0 0))
    ∧ ¬ (("line 1, position 1").data <:+: (parseErrorMessage "/c/base/catalog.yml" 0 0).data)
    ∧ (("line 0, position 0").data <:+: (parseErrorMessage "/c/base/catalog.yml" 0 0).data) :=
  ⟨rfl, rfl, by decide, by decide⟩

/-- C4 (amended): a malformed fragment makes the lookup fail with a parse
error whose message states the file path and the engine problem mark's line
and column verbatim — hence zero-based positions, not one-based ones. -/
theorem c4_parse_error_message (fs : FileSys) (conf_path : String) (patterns : List String)
    (l1 l2 : List String) (p : String) (line cursor : Nat)
    (hdir : fs.isDir conf_path = true)
    (hcand : candidateFiles fs conf_path patterns = l1 ++ p :: l2)
    (hok : ∀ q ∈ l1, (fs.parse q).isOk)
    (herr : fs.parse p = .error (line, cursor)) :
    load_and_merge_dir_config fs conf_path patterns
      = .error (.parserError (parseErrorMessage p line cursor)) := by
  apply load_dir_load_error hdir
  rw [hcand]
  exact loadFiles_first_error hok herr

/-- Witness for the amended C4: the malformed fragment produces the exact
wrapped message. -/
theorem c4_parse_error_message_witness :
    load_and_merge_dir_config badFs "/c/base" ["catalog*"]
      = .error (.parserError
          "Invalid YAML or JSON file /c/base/catalog.yml, unable to read line 0, position 0.") :=
  c4_parse_error_message badFs "/c/base" ["catalog*"] [] [] "/c/base/catalog.yml" 0 0
    rfl rfl (fun q hq => absurd hq (List.not_mem_nil q)) rfl

/-- C5: when a target directory — base or run environment — is not a
directory, the lookup fails with the missing-configuration-path error
naming that path, and the check precedes any pattern expansion.  First
conjunct: a missing base directory fails naming the base path whatever the
rest of the filesystem holds (in particular even when the environment
directory exists and holds matching fragments).  Second conjunct: when the
base layer loads cleanly but the run-environment directory is missing, the
lookup fails naming the environment path. -/
theorem c5_missing_config_path (L : OmegaConfLoader) (fs : FileSys) (key : String)
    (patterns : List String)
    (hpre : lookupKey L.preset key = none)
    (hpat : lookupKey L.config_patterns key = some patterns) :
    (fs.isDir (pathJoin L.conf_source L.base_env) = false →
      getitem L fs key
        = .error (.missingConfig (missingPathMessage (pathJoin L.conf_source L.base_env))))
    ∧ (∀ base_config : Cfg,
      load_and_merge_dir_config fs (pathJoin L.conf_source L.base_env) patterns
        = .ok base_config →
      fs.isDir (pathJoin L.conf_source (runEnv L)) = false →
      getitem L fs key
        = .error (.missingConfig (missingPathMessage (pathJoin L.conf_source (runEnv L))))) := by
  constructor
  · intro hdir
    have hb := @load_dir_not_dir fs (pathJoin L.conf_source L.base_env) patterns hdir
    simp [getitem, hpre, hpat, hb]
  · intro base_config hb hdir
    have he := @load_dir_not_dir fs (pathJoin L.conf_source (runEnv L)) patterns hdir
    simp [getitem, hpre, hpat, hb, he]

/-- Witness for C5, both branches: a missing base directory fails naming
the base path even though the environment directory exists and holds a
matching fragment; and a missing environment directory over a cleanly
loading base layer fails naming the environment path. -/
theorem c5_missing_config_path_witness :
    (noBaseFs.isDir "/c/local" = true
      ∧ candidateFiles noBaseFs "/c/local" ["catalog*"] = ["/c/local/catalog.yml"]
      ∧ getitem exLoader noBaseFs "catalog"
          = .error (.missingConfig (missingPathMessage "/c/base")))
    ∧ getitem exLoader noEnvFs "catalog"
        = .error (.missingConfig (missingPathMessage "/c/local")) :=
  ⟨⟨rfl, rfl,
    (c5_missing_config_path exLoader noBaseFs "catalog" ["catalog*"] rfl rfl).1 rfl⟩,
    (c5_missing_config_path exLoader noEnvFs "catalog" ["catalog*"] rfl rfl).2
      [("a", CVal.vint 1)] rfl rfl⟩

/-- C6: when both per-directory loads succeed and the composed tree is
empty, the lookup fails with the missing-configuration error naming both
candidate directories and the searched patterns; when the composed tree is
non-empty the lookup returns it and that error is not raised. -/
theorem c6_missing_config_error (L : OmegaConfLoader) (fs : FileSys) (key : String)
    (patterns : List String) (base_config env_config : Cfg)
    (hpre : lookupKey L.preset key = none)
    (hpat : lookupKey L.config_patterns key = some patterns)
    (hb : load_and_merge_dir_config fs (pathJoin L.conf_source L.base_env) patterns
      = .ok base_config)
    (he : load_and_merge_dir_config fs (pathJoin L.conf_source (runEnv L)) patterns
      = .ok env_config) :
    ((dictUpdate base_config env_config).isEmpty = true →
      getitem L fs key = .error (.missingConfig (missingConfigMessage
        (pathJoin L.conf_source L.base_env) (pathJoin L.conf_source (runEnv L)) patterns)))
    ∧ ((dictUpdate base_config env_config).isEmpty = false →
      getitem L fs key = .ok (dictUpdate base_config env_config)) := by
  constructor
  · intro hie
    simp [getitem, hpre, hpat, hb, he, hie]
  · intro hie
    simp [getitem, hpre, hpat, hb, he, hie]

/-- Witness for C6: both directories exist but contain no fragments; the
lookup fails with the missing-configuration error naming both directories
and the pattern list. -/
theorem c6_missing_config_error_witness :
    getitem exLoader emptyFs "catalog"
      = .error (.missingConfig (missingConfigMessage "/c/base" "/c/local" ["catalog*"])) :=
  (c6_missing_config_error exLoader emptyFs "catalog" ["catalog*"] [] [] rfl rfl rfl rfl).1 rfl

/-- C7: the per-directory merge policy — zero fragments yield the empty
tree, one fragment is returned verbatim, and for fragments with pairwise
disjoint top-level key sets the merged tree holds exactly the union of the
fragments' keys, each key bound to its sole contributing fragment's value. -/
theorem c7_directory_merge_policy :
    aggregate ([] : List Cfg) = []
    ∧ (∀ c : Cfg, aggregate [c] = c)
    ∧ (∀ cs : List Cfg, cs.Pairwise (fun a b => keysDisjointB a b = true) →
        (∀ c ∈ cs, ∀ k : String, (lookupKey c k).isSome →
          lookupKey (aggregate cs) k = lookupKey c k)
        ∧ (∀ k : String, (∀ c ∈ cs, lookupKey c k = none) →
          lookupKey (aggregate cs) k = none)) := by
  refine ⟨rfl, fun c => rfl, fun cs hpw => ⟨?_, ?_⟩⟩
  · intro c hc k hs
    rw [aggregate_eq_flatten hpw, lookupKey_flatten]
    exact lookupFirst_eq_of_mem hpw hc hs
  · intro k hnone
    rw [aggregate_eq_flatten hpw, lookupKey_flatten]
    exact (lookupFirst_eq_none_iff cs k).mpr hnone

/-- Witness for C7 on two disjoint fragments: the merged tree answers key
`b` with the value of its sole contributing fragment. -/
theorem c7_directory_merge_policy_witness :
    ([[("a", CVal.vint 1)], [("b", CVal.vint 2), ("c", CVal.vint 3)]] : List Cfg).Pairwise
      (fun a b => keysDisjointB a b = true)
    ∧ lookupKey (aggregate [[("a", CVal.vint 1)], [("b", CVal.vint 2), ("c", CVal.vint 3)]]) "b"
      = lookupKey [("b", CVal.vint 2), ("c", CVal.vint 3)] "b" :=
  ⟨by decide,
    (c7_directory_merge_policy.2.2 _ (by decide)).1
      [("b", CVal.vint 2), ("c", CVal.vint 3)]
      (List.Mem.tail _ (List.Mem.head _)) "b" (by decide)⟩

/-- C8: a value explicitly pre-set on the loader instance is returned
immediately for its key, for every filesystem — the explicit-override path
precedes pattern resolution and never touches the filesystem. -/
theorem c8_preset_bypass (L : OmegaConfLoader) (fs : FileSys) (key : String) (value : Cfg)
    (hpre : lookupKey L.preset key = some value) :
    getitem L fs key = .ok value := by
  simp [getitem, hpre]

/-- Witness for C8: the pre-set value comes back even over a filesystem
whose only fragment is malformed. -/
theorem c8_preset_bypass_witness :
    getitem presetLoader badFs "catalog" = .ok [("x", CVal.vint 42)] :=
  c8_preset_bypass presetLoader badFs "catalog" [("x", CVal.vint 42)] rfl

/-- C9: a key with no registered patterns and no pre-set value fails with
the unknown-key error naming the key, for every filesystem — before any
filesystem access. -/
theorem c9_unknown_key (L : OmegaConfLoader) (fs : FileSys) (key : String)
    (hpre : lookupKey L.preset key = none)
    (hpat : lookupKey L.config_patterns key = none) :
    getitem L fs key = .error (.keyError (unknownKeyMessage key)) := by
  simp [getitem, hpre, hpat]

/-- Witness for C9. -/
theorem c9_unknown_key_witness :
    getitem exLoader emptyFs "spark" = .error (.keyError (unknownKeyMessage "spark")) :=
  c9_unknown_key exLoader emptyFs "spark" rfl rfl

/-- C10: a key registered with an EMPTY pattern list (and no pre-set value)
does not raise the unknown-key error: with both directories existing the
pipeline runs, finds no candidates, and fails with the missing-configuration
error instead — membership in the pattern table, not non-emptiness of the
pattern list, gates the unknown-key error. -/
theorem c10_empty_pattern_list (L : OmegaConfLoader) (fs : FileSys) (key : String)
    (hpre : lookupKey L.preset key = none)
    (hpat : lookupKey L.config_patterns key = some [])
    (hdirB : fs.isDir (pathJoin L.conf_source L.base_env) = true)
    (hdirE : fs.isDir (pathJoin L.conf_source (runEnv L)) = true) :
    getitem L fs key = .error (.missingConfig (missingConfigMessage
      (pathJoin L.conf_source L.base_env) (pathJoin L.conf_source (runEnv L)) []))
    ∧ ∀ m : String, getitem L fs key ≠ .error (.keyError m) := by
  have hloadB : load_and_merge_dir_config fs (pathJoin L.conf_source L.base_env) []
      = .ok ([] : Cfg) :=
    @load_dir_ok fs (pathJoin L.conf_source L.base_env) [] [] hdirB rfl rfl
  have hloadE : load_and_merge_dir_config fs (pathJoin L.conf_source (runEnv L)) []
      = .ok ([] : Cfg) :=
    @load_dir_ok fs (pathJoin L.conf_source (runEnv L)) [] [] hdirE rfl rfl
  have h1 : getitem L fs key = .error (.missingConfig (missingConfigMessage
      (pathJoin L.conf_source L.base_env) (pathJoin L.conf_source (runEnv L)) [])) := by
    simp [getitem, hpre, hpat, hloadB, hloadE, dictUpdate]
  refine ⟨h1, fun m hm => ?_⟩
  rw [h1] at hm
  simp at hm

/-- Witness for C10. -/
theorem c10_empty_pattern_list_witness :
    getitem emptyPatLoader emptyFs "empty"
      = .error (.missingConfig (missingConfigMessage "/c/base" "/c/local" [])) :=
  (c10_empty_pattern_list emptyPatLoader emptyFs "empty" rfl rfl rfl rfl).1

end KedroOmega
